import Mathlib

/-!
Verification of the broker connectivity layer of the trading-bot repository,
shallowly embedded from `src/core/tradelocker_client.py`.

The embedding covers: the token-bucket `RateLimiter`, the priority
`RequestQueue` (a Python `deque` with `maxlen` that is re-sorted by
`(priority, enqueue_time)` on every `put`), the `_process_request_queue`
transport loop, the `_make_request` retry loop with its error-count window,
and the websocket re-subscription logic.

Modelling conventions:
* Python floats (`time.monotonic()` readings, delays, token counts) are
  modelled as rationals (`ℚ`); exact arithmetic stands in for IEEE floats.
* `time.monotonic()` readings taken inside `RequestQueue.put` are modelled
  by a strictly increasing `clock : Nat` (one tick per `put`).
* The network is a script: a list of `HttpResp` consumed one element per
  HTTP send.  A scripted run that needs more responses than the script has,
  or any path where the Python code blocks forever (e.g. `get()` on an
  empty queue after the `QueueEmpty` exception is swallowed), is modelled
  as `none` (divergence) via an explicit fuel parameter.
* `random.uniform(-j*delay, j*delay)` jitter is a parameter `jit : Nat → ℚ`
  giving the jitter drawn at each retry index.
* `self._refresh_token()` (which recursively issues a `/auth/refresh`
  request) is abstracted to a `refreshCount` counter plus a `refreshOk`
  flag telling whether the refresh attempt succeeds; only the count is
  observed by any theorem.
-/

namespace TradingBot

/-! ### RateLimiter (token bucket), from `RateLimiter.acquire`, lines 27-44 -/

/-- Result of one `RateLimiter.acquire` call: the token count it leaves
behind and the duration slept, if any. -/
structure AcquireResult where
  tokens : ℚ
  waited : Option ℚ
deriving DecidableEq, Repr

namespace RateLimiter

/-- One `acquire()` call.  `elapsed` is `now - self.last_update`; the source
first refills `tokens = min(max_tokens, tokens + time_passed * rate)`, then
either sleeps `(1 - tokens) / rate` and zeroes the bucket (when `tokens < 1`)
or consumes one token. -/
def acquire (rate maxTokens tokens elapsed : ℚ) : AcquireResult :=
  let refilled := min maxTokens (tokens + elapsed * rate)
  if refilled < 1 then
    { tokens := 0, waited := some ((1 - refilled) / rate) }
  else
    { tokens := refilled - 1, waited := none }

end RateLimiter

/-! ### RequestQueue, lines 46-69

`put` appends `(priority, time.monotonic(), request)` to a `deque` with
`maxlen` (a full deque discards its leftmost element on append) and then
replaces the deque by one sorted on the key `(priority, time)`; `get` pops
the leftmost element and yields its `request` component. -/

/-- One queued triple `(priority, time, request)`. -/
structure QItem (α : Type) where
  priority : Nat
  time : Nat
  request : α
deriving DecidableEq, Repr

/-- Python's `sorted(..., key=lambda x: (x[0], x[1]))` comparison: ascending
lexicographic order on `(priority, time)`. -/
def qle {α : Type} (x y : QItem α) : Bool :=
  decide (x.priority < y.priority) ||
    (decide (x.priority = y.priority) && decide (x.time ≤ y.time))

theorem qle_trans {α : Type} (a b c : QItem α) :
    qle a b = true → qle b c = true → qle a c = true := by
  simp only [qle, Bool.or_eq_true, Bool.and_eq_true, decide_eq_true_eq]
  omega

theorem qle_total {α : Type} (a b : QItem α) :
    (qle a b || qle b a) = true := by
  simp only [qle, Bool.or_eq_true, Bool.and_eq_true, decide_eq_true_eq]
  omega

/-- The sort key as a relation, for use with `List.insertionSort`. -/
def qleR {α : Type} (a b : QItem α) : Prop := qle a b = true

instance {α : Type} : DecidableRel (qleR (α := α)) :=
  fun a b => inferInstanceAs (Decidable (qle a b = true))

instance {α : Type} : IsTotal (QItem α) qleR :=
  ⟨fun a b => by
    have := qle_total a b
    rcases Bool.or_eq_true_iff.mp this with h | h
    · exact Or.inl h
    · exact Or.inr h⟩

instance {α : Type} : IsTrans (QItem α) qleR :=
  ⟨fun a b c => qle_trans a b c⟩

/-- State of a `RequestQueue`: the (sorted) buffer, the `maxlen` bound and
the next monotonic-clock reading. -/
structure RequestQueue (α : Type) where
  queue : List (QItem α)
  maxSize : Nat
  clock : Nat
deriving DecidableEq, Repr

namespace RequestQueue

/-- Fresh queue, as built by `RequestQueue.__init__` (source default
`max_size = 1000`). -/
def init (α : Type) (maxSize : Nat) : RequestQueue α :=
  { queue := [], maxSize := maxSize, clock := 0 }

/-- `put(request, priority)`: append the stamped triple (a full `deque`
first discards its leftmost element), then sort by `(priority, time)`.
Python's `sorted` is a stable sort; on every reachable state the keys
`(priority, time)` are pairwise distinct (the clock strictly increases), so
every comparison sort computes the same list, and the structurally
recursive `List.insertionSort` is used so that terms evaluate. -/
def put (st : RequestQueue α) (request : α) (priority : Nat) : RequestQueue α :=
  let item : QItem α := { priority := priority, time := st.clock, request := request }
  let appended := (st.queue ++ [item]).drop (st.queue.length + 1 - st.maxSize)
  { st with queue := List.insertionSort qleR appended, clock := st.clock + 1 }

/-- `get()`: pop the leftmost element (the source returns its `[2]`
component, the request; the model keeps the whole triple visible). -/
def get (st : RequestQueue α) : Option (QItem α × RequestQueue α) :=
  match st.queue with
  | [] => none
  | x :: rest => some (x, { st with queue := rest })

end RequestQueue

/-! ### Operation sequences over a RequestQueue -/

/-- One queue operation issued by a client of `RequestQueue`. -/
inductive QOp (α : Type) where
  | put (request : α) (priority : Nat)
  | get
deriving DecidableEq, Repr

namespace RequestQueue

/-- Run a sequence of operations, logging the items returned by the `get`
calls.  A `get` on an empty queue blocks in the source (the `not_empty`
event) and so returns nothing; it is modelled as a no-op. -/
def run (st : RequestQueue α) : List (QOp α) → RequestQueue α × List (QItem α)
  | [] => (st, [])
  | QOp.put r p :: ops => run (st.put r p) ops
  | QOp.get :: ops =>
    match st.get with
    | none => run st ops
    | some (x, st') =>
      let (stf, rets) := run st' ops
      (stf, x :: rets)

/-- Holds when no `put` of the sequence ever lands on a full queue, i.e. the
capacity bound is never exceeded and the `deque` never evicts. -/
def noOverflow (st : RequestQueue α) : List (QOp α) → Bool
  | [] => true
  | QOp.put r p :: ops =>
    decide (st.queue.length < st.maxSize) && noOverflow (st.put r p) ops
  | QOp.get :: ops =>
    match st.get with
    | none => noOverflow st ops
    | some (_, st') => noOverflow st' ops

/-- The stamped items created by the `put` operations of a run. -/
def putItems (st : RequestQueue α) : List (QOp α) → List (QItem α)
  | [] => []
  | QOp.put r p :: ops =>
    { priority := p, time := st.clock, request := r } :: putItems (st.put r p) ops
  | QOp.get :: ops =>
    match st.get with
    | none => putItems st ops
    | some (_, st') => putItems st' ops

/-- Internal invariant of a reachable queue state: the buffer is sorted by
`(priority, time)` and every stamp is below the clock. -/
def Inv (st : RequestQueue α) : Prop :=
  st.queue.Pairwise qleR ∧ ∀ x ∈ st.queue, x.time < st.clock

theorem Inv_init (α : Type) (maxSize : Nat) : Inv (init α maxSize) := by
  constructor
  · exact List.Pairwise.nil
  · intro x hx; cases hx

theorem mem_put {α : Type} {st : RequestQueue α} {r : α} {p : Nat} {x : QItem α}
    (hx : x ∈ (st.put r p).queue) :
    x ∈ st.queue ∨ x = { priority := p, time := st.clock, request := r } := by
  unfold put at hx
  have hperm := List.perm_insertionSort qleR
    ((st.queue ++ [({ priority := p, time := st.clock, request := r } : QItem α)]).drop
      (st.queue.length + 1 - st.maxSize))
  have hx' := hperm.mem_iff.mp hx
  have hx'' := List.mem_of_mem_drop hx'
  rcases List.mem_append.mp hx'' with h | h
  · exact Or.inl h
  · exact Or.inr (List.mem_singleton.mp h)

theorem Inv_put {α : Type} {st : RequestQueue α} (h : Inv st) (r : α) (p : Nat) :
    Inv (st.put r p) := by
  constructor
  · exact List.sorted_insertionSort qleR _
  · intro x hx
    show x.time < st.clock + 1
    rcases mem_put hx with hmem | rfl
    · exact Nat.lt_succ_of_lt (h.2 x hmem)
    · exact Nat.lt_succ_self _

theorem Inv_get {α : Type} {st st' : RequestQueue α} {x : QItem α} (h : Inv st)
    (hget : st.get = some (x, st')) : Inv st' := by
  unfold get at hget
  cases hq : st.queue with
  | nil => rw [hq] at hget; cases hget
  | cons y rest =>
    rw [hq] at hget
    cases hget
    refine ⟨?_, ?_⟩
    · have := h.1; rw [hq] at this; exact this.tail
    · intro z hz
      exact h.2 z (by rw [hq]; exact List.mem_cons_of_mem _ hz)

theorem Inv_run {α : Type} {st : RequestQueue α} (h : Inv st) (ops : List (QOp α)) :
    Inv (run st ops).1 := by
  induction ops generalizing st with
  | nil => exact h
  | cons op ops ih =>
    cases op with
    | put r p => exact ih (Inv_put h r p)
    | get =>
      cases hget : st.get with
      | none => simpa [run, hget] using ih h
      | some v =>
        obtain ⟨x, st'⟩ := v
        have h' := Inv_get h hget
        have := ih h'
        simp only [run, hget]
        cases hrun : run st' ops with
        | mk stf rets => rw [hrun] at this; exact this

theorem put_perm_of_notFull {α : Type} {st : RequestQueue α} {r : α} {p : Nat}
    (h : st.queue.length < st.maxSize) :
    (st.put r p).queue.Perm
      (st.queue ++ [({ priority := p, time := st.clock, request := r } : QItem α)]) := by
  have hdrop : st.queue.length + 1 - st.maxSize = 0 := by omega
  unfold put
  simp only [hdrop, List.drop_zero]
  exact List.perm_insertionSort qleR _

theorem run_perm {α : Type} (ops : List (QOp α)) (st : RequestQueue α)
    (h : noOverflow st ops = true) :
    ((run st ops).1.queue ++ (run st ops).2).Perm (st.queue ++ putItems st ops) := by
  induction ops generalizing st with
  | nil => simp [run, putItems]
  | cons op ops ih =>
    cases op with
    | put r p =>
      simp only [noOverflow, Bool.and_eq_true, decide_eq_true_eq] at h
      have hstep := ih (st.put r p) h.2
      simp only [run, putItems]
      refine hstep.trans ?_
      have hput := (put_perm_of_notFull (r := r) (p := p) h.1).append_right
        (putItems (st.put r p) ops)
      refine hput.trans ?_
      rw [List.append_assoc]
      exact List.Perm.refl _
    | get =>
      cases hget : st.get with
      | none =>
        simp only [noOverflow, hget] at h
        simpa [run, putItems, hget] using ih st h
      | some v =>
        obtain ⟨x, st'⟩ := v
        simp only [noOverflow, hget] at h
        have hstep := ih st' h
        have hqueue : st.queue = x :: st'.queue := by
          unfold get at hget
          cases hq : st.queue with
          | nil => rw [hq] at hget; cases hget
          | cons y rest =>
            rw [hq] at hget
            cases hget
            rfl
        simp only [run, putItems, hget]
        cases hrun : run st' ops with
        | mk stf rets =>
          rw [hrun] at hstep
          simp only at hstep ⊢
          rw [hqueue]
          exact List.perm_middle.trans (hstep.cons x)

theorem put_maxSize {α : Type} (st : RequestQueue α) (r : α) (p : Nat) :
    (st.put r p).maxSize = st.maxSize := rfl

theorem put_length_le {α : Type} (st : RequestQueue α) (r : α) (p : Nat) :
    (st.put r p).queue.length ≤ st.maxSize := by
  unfold put
  simp only
  have hperm := List.perm_insertionSort qleR
    ((st.queue ++ [({ priority := p, time := st.clock, request := r } : QItem α)]).drop
      (st.queue.length + 1 - st.maxSize))
  rw [hperm.length_eq, List.length_drop, List.length_append, List.length_singleton]
  omega

theorem run_maxSize {α : Type} (ops : List (QOp α)) (st : RequestQueue α) :
    (run st ops).1.maxSize = st.maxSize := by
  induction ops generalizing st with
  | nil => rfl
  | cons op ops ih =>
    cases op with
    | put r p => simpa [run, put_maxSize] using ih (st.put r p)
    | get =>
      cases hget : st.get with
      | none => simpa [run, hget] using ih st
      | some v =>
        obtain ⟨x, st'⟩ := v
        have hmax : st'.maxSize = st.maxSize := by
          unfold get at hget
          cases hq : st.queue with
          | nil => rw [hq] at hget; cases hget
          | cons y rest => rw [hq] at hget; cases hget; rfl
        have := ih st'
        simp only [run, hget]
        cases hrun : run st' ops with
        | mk stf rets => rw [hrun] at this; simpa [hmax] using this

theorem run_length_le {α : Type} (ops : List (QOp α)) (st : RequestQueue α)
    (h : st.queue.length ≤ st.maxSize) :
    (run st ops).1.queue.length ≤ st.maxSize := by
  induction ops generalizing st with
  | nil => exact h
  | cons op ops ih =>
    cases op with
    | put r p =>
      have := ih (st.put r p) (by rw [put_maxSize]; exact put_length_le st r p)
      simpa [run, put_maxSize] using this
    | get =>
      cases hget : st.get with
      | none => simpa [run, hget] using ih st h
      | some v =>
        obtain ⟨x, st'⟩ := v
        have htail : st'.queue.length ≤ st.queue.length ∧ st'.maxSize = st.maxSize := by
          unfold get at hget
          cases hq : st.queue with
          | nil => rw [hq] at hget; cases hget
          | cons y rest =>
            rw [hq] at hget
            cases hget
            constructor
            · simp [hq]
            · rfl
        have := ih st' (by omega)
        simp only [run, hget]
        cases hrun : run st' ops with
        | mk stf rets =>
          rw [hrun] at this
          omega

theorem qleR_refl {α : Type} (x : QItem α) : qleR x x := by
  simp [qleR, qle]

end RequestQueue

/-- Conclusion of claim C1 for a given operation sequence: the final queue
content plus the returned items account exactly for the items put (nothing
is lost or duplicated), and a `get` on the final state removes the head,
which has the least priority number, oldest stamp first within a band. -/
def GetMinSpec (α : Type) (maxSize : Nat) (ops : List (QOp α)) : Prop :=
  (((RequestQueue.run (RequestQueue.init α maxSize) ops).1.queue ++
      (RequestQueue.run (RequestQueue.init α maxSize) ops).2).Perm
    (RequestQueue.putItems (RequestQueue.init α maxSize) ops)) ∧
  ∀ x st', (RequestQueue.run (RequestQueue.init α maxSize) ops).1.get = some (x, st') →
    (RequestQueue.run (RequestQueue.init α maxSize) ops).1.queue = x :: st'.queue ∧
    ∀ y ∈ (RequestQueue.run (RequestQueue.init α maxSize) ops).1.queue,
      x.priority ≤ y.priority ∧ (x.priority = y.priority → x.time ≤ y.time)

/-- C1: for every sequence of `RequestQueue.put` and `RequestQueue.get`
operations in which the capacity bound is never exceeded, each `get` returns
and removes an item of smallest priority number among the items enqueued and
not yet returned; among equal priorities the earliest-enqueued item (the one
with the smaller monotonic-clock stamp) is returned first. -/
theorem requestQueue_get_priority_fifo {α : Type} (maxSize : Nat) (ops : List (QOp α))
    (h : RequestQueue.noOverflow (RequestQueue.init α maxSize) ops = true) :
    GetMinSpec α maxSize ops := by
  constructor
  · have := RequestQueue.run_perm ops (RequestQueue.init α maxSize) h
    simpa [RequestQueue.init] using this
  · intro x st' hget
    have hinv := RequestQueue.Inv_run (RequestQueue.Inv_init α maxSize) ops
    set stf := (RequestQueue.run (RequestQueue.init α maxSize) ops).1 with hstf
    have hqueue : stf.queue = x :: st'.queue := by
      unfold RequestQueue.get at hget
      cases hq : stf.queue with
      | nil => rw [hq] at hget; cases hget
      | cons y rest =>
        rw [hq] at hget
        cases hget
        rfl
    refine ⟨hqueue, ?_⟩
    intro y hy
    have hpair := hinv.1
    rw [hqueue] at hpair hy
    rcases List.mem_cons.mp hy with rfl | hmem
    · exact ⟨Nat.le_refl _, fun _ => Nat.le_refl _⟩
    · have := List.rel_of_pairwise_cons hpair hmem
      simp only [qleR, qle, Bool.or_eq_true, Bool.and_eq_true, decide_eq_true_eq] at this
      constructor
      · omega
      · intro heq; omega

/-- Witness for C1: a concrete run with two priority bands; the `get`
returns the priority-0 item enqueued second. -/
theorem requestQueue_get_priority_fifo_witness :
    RequestQueue.noOverflow (RequestQueue.init Nat 10)
      [QOp.put 7 1, QOp.put 8 0, QOp.get] = true ∧
    GetMinSpec Nat 10 [QOp.put 7 1, QOp.put 8 0, QOp.get] :=
  ⟨by decide, requestQueue_get_priority_fifo 10 _ (by decide)⟩

/-- C2 counterexample: with capacity 1, after `put(100, priority=0)` the
`put(200, priority=5)` evicts the priority-0 (more urgent) request and
retains the priority-5 (less urgent) one — the opposite of the claimed
eviction order. -/
theorem requestQueue_evict_counterexample :
    ({ priority := 0, time := 0, request := 100 } : QItem Nat) ∉
      (((RequestQueue.init Nat 1).put 100 0).put 200 5).queue ∧
    ({ priority := 5, time := 1, request := 200 } : QItem Nat) ∈
      (((RequestQueue.init Nat 1).put 100 0).put 200 5).queue ∧
    (0 : Nat) < 5 := by decide

/-- Conclusion of the amended claim C2 for a reachable state: the queue
length never exceeds `max_size`, and a `put` on a full queue evicts the
front of the priority-sorted buffer — the item with the *least*
`(priority, enqueue-time)` key, i.e. the most urgent, oldest item. -/
def EvictBoundSpec (α : Type) (maxSize : Nat) (ops : List (QOp α)) (request : α)
    (p : Nat) : Prop :=
  (RequestQueue.run (RequestQueue.init α maxSize) ops).1.queue.length ≤ maxSize ∧
  ((RequestQueue.run (RequestQueue.init α maxSize) ops).1.queue.length = maxSize →
    ∃ x rest,
      (RequestQueue.run (RequestQueue.init α maxSize) ops).1.queue = x :: rest ∧
      (∀ y ∈ (RequestQueue.run (RequestQueue.init α maxSize) ops).1.queue, qleR x y) ∧
      (((RequestQueue.run (RequestQueue.init α maxSize) ops).1.put request p).queue.Perm
        (rest ++ [{ priority := p,
                    time := (RequestQueue.run (RequestQueue.init α maxSize) ops).1.clock,
                    request := request }])))

/-- C2, amended: capacity is indeed bounded at `max_size`, but the item a
full `put` evicts is the head of the sorted deque — the queued item with
the smallest `(priority, enqueue-time)` key (the most urgent, oldest one),
not a least-urgent item. -/
theorem requestQueue_evict_amended {α : Type} (maxSize : Nat) (ops : List (QOp α))
    (request : α) (p : Nat) (hm : 0 < maxSize) :
    EvictBoundSpec α maxSize ops request p := by
  constructor
  · have := RequestQueue.run_length_le ops (RequestQueue.init α maxSize)
      (by simp [RequestQueue.init])
    simpa [RequestQueue.init] using this
  · intro hfull
    have hinv := RequestQueue.Inv_run (RequestQueue.Inv_init α maxSize) ops
    have hmax : (RequestQueue.run (RequestQueue.init α maxSize) ops).1.maxSize = maxSize := by
      have := RequestQueue.run_maxSize ops (RequestQueue.init α maxSize)
      simpa [RequestQueue.init] using this
    set stf := (RequestQueue.run (RequestQueue.init α maxSize) ops).1 with hstf
    cases hq : stf.queue with
    | nil => rw [hq] at hfull; simp at hfull; omega
    | cons x rest =>
      refine ⟨x, rest, rfl, ?_, ?_⟩
      · intro y hy
        have hpair := hinv.1
        rw [hq] at hpair
        rcases List.mem_cons.mp hy with rfl | hmem
        · exact RequestQueue.qleR_refl _
        · exact List.rel_of_pairwise_cons hpair hmem
      · unfold RequestQueue.put
        simp only
        have hlen : stf.queue.length + 1 - stf.maxSize = 1 := by
          rw [hfull, hmax]; omega
        rw [hlen, hq]
        have hdrop :
            ((x :: rest) ++
              [({ priority := p, time := stf.clock, request := request } : QItem α)]).drop 1 =
            rest ++ [({ priority := p, time := stf.clock, request := request } : QItem α)] := by
          simp
        rw [hdrop]
        exact List.perm_insertionSort qleR _

/-- Witness for the amended C2: capacity 1, one queued item; the next `put`
evicts exactly that item. -/
theorem requestQueue_evict_amended_witness :
    0 < 1 ∧ EvictBoundSpec Nat 1 [QOp.put 100 0] 200 5 :=
  ⟨by decide, requestQueue_evict_amended 1 [QOp.put 100 0] 200 5 (by decide)⟩

/-! ### Claim C8: RateLimiter.acquire -/

/-- Conclusion of claim C8 at given parameters: `acquire` refills to
`min(max_tokens, tokens + elapsed * rate)`; when the refilled count is below
one it suspends for `(1 - tokens) / rate` seconds and zeroes the bucket,
otherwise it consumes exactly one token with no wait; the resulting token
count lies in `[0, max_tokens]`. -/
def AcquireSpec (rate maxTokens tokens elapsed : ℚ) : Prop :=
  (min maxTokens (tokens + elapsed * rate) < 1 →
    RateLimiter.acquire rate maxTokens tokens elapsed =
      { tokens := 0, waited := some ((1 - min maxTokens (tokens + elapsed * rate)) / rate) }) ∧
  (1 ≤ min maxTokens (tokens + elapsed * rate) →
    RateLimiter.acquire rate maxTokens tokens elapsed =
      { tokens := min maxTokens (tokens + elapsed * rate) - 1, waited := none }) ∧
  0 ≤ (RateLimiter.acquire rate maxTokens tokens elapsed).tokens ∧
  (RateLimiter.acquire rate maxTokens tokens elapsed).tokens ≤ maxTokens

/-- C8: every `RateLimiter.acquire` call refills to
`min(max_tokens, tokens + elapsed_seconds * rate)`, then either suspends for
`(1 - tokens)/rate` and sets the bucket to 0 (when below one token) or
decrements by exactly one; the bucket stays within `[0, max_tokens]`. -/
theorem rateLimiter_acquire_spec (rate maxTokens tokens elapsed : ℚ)
    (htok : 0 ≤ tokens) (hcap : tokens ≤ maxTokens) (helapsed : 0 ≤ elapsed)
    (hrate : 0 < rate) :
    AcquireSpec rate maxTokens tokens elapsed := by
  have hrefill_lb : 0 ≤ min maxTokens (tokens + elapsed * rate) := by
    apply le_min (le_trans htok hcap)
    have : 0 ≤ elapsed * rate := mul_nonneg helapsed (le_of_lt hrate)
    linarith
  have hrefill_ub : min maxTokens (tokens + elapsed * rate) ≤ maxTokens :=
    min_le_left _ _
  refine ⟨?_, ?_, ?_, ?_⟩
  · intro h
    unfold RateLimiter.acquire
    simp only [h, if_pos]
  · intro h
    unfold RateLimiter.acquire
    rw [if_neg (by linarith)]
  · unfold RateLimiter.acquire
    by_cases h : min maxTokens (tokens + elapsed * rate) < 1
    · simp only [h, if_pos]
      exact le_refl 0
    · rw [if_neg h]
      simp only
      linarith [not_lt.mp h]
  · unfold RateLimiter.acquire
    by_cases h : min maxTokens (tokens + elapsed * rate) < 1
    · simp only [h, if_pos]
      linarith
    · rw [if_neg h]
      simp only
      linarith

/-- Witness for C8: rate 10, `max_tokens` 100 (the source's constructor
arguments), 3 tokens left, 1 second elapsed. -/
theorem rateLimiter_acquire_spec_witness :
    0 ≤ (3 : ℚ) ∧ (3 : ℚ) ≤ 100 ∧ 0 ≤ (1 : ℚ) ∧ 0 < (10 : ℚ) ∧
    AcquireSpec 10 100 3 1 :=
  ⟨by norm_num, by norm_num, by norm_num, by norm_num,
    rateLimiter_acquire_spec 10 100 3 1 (by norm_num) (by norm_num) (by norm_num)
      (by norm_num)⟩

/-! ### Claim C9: websocket re-subscription after reconnect

From `_maintain_websocket_connection` lines 473-475 (`for subscription in
self._ws_subscriptions: await self._ws_subscribe(subscription)`) and
`_ws_subscribe` lines 554-561.  The Python `set` is modelled as a
duplicate-free list; iteration over the live set is modelled by iterating a
snapshot, which is faithful because `_ws_subscribe` only re-adds members
that are already present (the set never changes size mid-iteration, so
CPython raises no error and the iteration sees exactly the original
members). -/

/-- Websocket-related state: transport truthiness (`self.ws`), the
subscription set and the log of `subscribe` frames sent. -/
structure WsState where
  ws : Bool
  subscriptions : List String
  sent : List String
deriving DecidableEq, Repr

/-- `_ws_subscribe(subscription)`: if the transport is up, send a
`subscribe` frame for the channel and add it to `_ws_subscriptions`. -/
def wsSubscribe (st : WsState) (s : String) : WsState :=
  if st.ws then
    { st with
      sent := st.sent ++ [s],
      subscriptions :=
        if s ∈ st.subscriptions then st.subscriptions else st.subscriptions ++ [s] }
  else st

/-- The re-subscription loop run on reconnect. -/
def resubscribeAll (st : WsState) : WsState :=
  st.subscriptions.foldl wsSubscribe st

theorem wsSubscribe_foldl :
    ∀ (l : List String) (acc : WsState), acc.ws = true →
      (∀ s ∈ l, s ∈ acc.subscriptions) →
      (l.foldl wsSubscribe acc).subscriptions = acc.subscriptions ∧
      (l.foldl wsSubscribe acc).sent = acc.sent ++ l := by
  intro l
  induction l with
  | nil => intro acc _ _; simp
  | cons s l ih =>
    intro acc hws hmem
    have hs : s ∈ acc.subscriptions := hmem s (List.mem_cons_self s l)
    have hstep : wsSubscribe acc s =
        { acc with sent := acc.sent ++ [s] } := by
      unfold wsSubscribe
      rw [if_pos hws, if_pos hs]
    have hrest := ih (wsSubscribe acc s)
      (by rw [hstep]; exact hws)
      (by
        intro x hx
        rw [hstep]
        exact hmem x (List.mem_cons_of_mem s hx))
    rw [List.foldl_cons]
    refine ⟨?_, ?_⟩
    · rw [hrest.1, hstep]
    · rw [hrest.2, hstep]
      simp

/-- Conclusion of claim C9: replaying the subscription set leaves the set
unchanged, and the frames sent during the replay are exactly the members of
the set, each channel exactly once, and no non-member is ever sent. -/
def ResubscribeSpec (st : WsState) : Prop :=
  (resubscribeAll st).subscriptions = st.subscriptions ∧
  (resubscribeAll st).sent = st.sent ++ st.subscriptions ∧
  (∀ s ∈ st.subscriptions,
    ((resubscribeAll st).sent.drop st.sent.length).count s = 1) ∧
  (∀ s, s ∉ st.subscriptions →
    ((resubscribeAll st).sent.drop st.sent.length).count s = 0)

/-- C9: after a reconnect (transport up, `_ws_subscriptions` a set, i.e. a
duplicate-free collection), the replay loop sends exactly one fresh
`subscribe` frame per previously-subscribed channel — none omitted, none
duplicated — and does not add or remove members of the subscription set. -/
theorem resubscribe_exactly_once (st : WsState) (hws : st.ws = true)
    (hnodup : st.subscriptions.Nodup) : ResubscribeSpec st := by
  have hfold := wsSubscribe_foldl st.subscriptions st hws (fun s hs => hs)
  have hdrop : ((resubscribeAll st).sent.drop st.sent.length) = st.subscriptions := by
    unfold resubscribeAll
    rw [hfold.2, List.drop_left]
  refine ⟨hfold.1, hfold.2, ?_, ?_⟩
  · intro s hs
    rw [hdrop]
    exact List.count_eq_one_of_mem hnodup hs
  · intro s hs
    rw [hdrop]
    exact List.count_eq_zero_of_not_mem hs

/-- Witness for C9: two subscribed channels, empty send log. -/
theorem resubscribe_exactly_once_witness :
    ({ ws := true, subscriptions := ["market_data_EURUSD", "market_data_GBPUSD"],
       sent := [] } : WsState).ws = true ∧
    (["market_data_EURUSD", "market_data_GBPUSD"] : List String).Nodup ∧
    ResubscribeSpec
      { ws := true, subscriptions := ["market_data_EURUSD", "market_data_GBPUSD"],
        sent := [] } :=
  ⟨rfl, by decide,
    resubscribe_exactly_once
      { ws := true, subscriptions := ["market_data_EURUSD", "market_data_GBPUSD"],
        sent := [] } rfl (by decide)⟩

/-! ### Claim C6: the missing `disconnect()` of the facade

The public surface of `TradeLockerClient` is embedded as the list of method
names the class defines (source lines 83-561); `TradingEngine.stop`
(`src/core/engine.py` line 79) is embedded as the list of client methods it
awaits.  The class defines no `disconnect` at all, while its own caller
requires one. -/

/-- Every method defined by `class TradeLockerClient` in
`src/core/tradelocker_client.py`. -/
def tradeLockerClientMethods : List String :=
  ["__init__", "_process_request_queue", "_make_request", "_process_response",
   "_refresh_token", "_start_token_refresh_task", "connect", "get_account_info",
   "get_positions", "place_order", "cancel_order", "get_order_status",
   "get_historical_data", "get_server_time", "get_order_book",
   "_maintain_websocket_connection", "_ws_authenticate", "_ws_keepalive",
   "_handle_ws_messages", "subscribe_market_data", "_ws_subscribe"]

/-- Client methods awaited by `TradingEngine.stop` (`engine.py` line 79). -/
def tradingEngineStopClientCalls : List String := ["disconnect"]

/-- C6 (code bug): the facade exposes no `disconnect()` operation at all —
there is nothing to cancel the background tasks or release the transport —
even though the repository's own `TradingEngine.stop` awaits
`self.client.disconnect()`. -/
theorem disconnect_missing :
    "disconnect" ∉ tradeLockerClientMethods ∧
    "disconnect" ∈ tradingEngineStopClientCalls ∧
    "connect" ∈ tradeLockerClientMethods := by decide

/-! ### The TradeLockerClient request machinery, lines 125-242

`_make_request` (lines 150-229) runs a retry loop; each iteration `put`s the
request on the shared `RequestQueue` and then directly awaits
`_process_request_queue()` (lines 125-148), which dequeues a request,
acquires a rate-limiter token, performs the HTTP send, handles 429 by
sleeping and re-enqueueing at priority 0, and returns the parsed JSON body
of the first non-429 response.  All exceptions inside
`_process_request_queue` are caught by its own `except` clause (line 146),
so the only outcomes it can deliver to `_make_request` are a body or
blocking forever; in particular it never raises `aiohttp.ClientError`. -/

/-- The request dict built by `_make_request` (`kwargs` abstracted to a
numeric tag). -/
structure Request where
  method : String
  url : String
  tag : Nat
deriving DecidableEq, Repr

/-- A parsed JSON response body, exposing exactly what
`_process_response` inspects: whether it is a dict, its `error` entry if
any, plus a tag distinguishing bodies. -/
structure Body where
  isDict : Bool := true
  errField : Option String := none
  tag : Nat := 0
deriving DecidableEq, Repr

/-- One scripted HTTP response of the server: status, optional integer
`Retry-After` header and body. -/
structure HttpResp where
  status : Nat
  retryAfter : Option Nat := none
  body : Body := {}
deriving DecidableEq, Repr

/-- The Python exceptions observable from `_make_request`. -/
inductive PyExc where
  | notConnected
  | suspended (endpoint : String)
  | respErr (status : Nat) (retryAfter : Option Nat)
  | clientErr
  | exc (msg : String)
  | valueError
  | apiError (msg : String)
  | maxRetriesExceeded
deriving DecidableEq, Repr

/-- Outcome of one `await self._process_request_queue()` as seen by the
retry loop: a body, an `aiohttp.ClientResponseError`, another
`aiohttp.ClientError`, a generic exception, or blocking forever. -/
inductive AttemptOut where
  | ok (body : Body)
  | respErr (status : Nat) (retryAfter : Option Nat)
  | clientErr
  | exc (msg : String)
  | hang
deriving DecidableEq, Repr

/-- `RetryConfig` defaults from lines 71-78. -/
structure RetryConfig where
  maxRetries : Nat := 3
  baseDelay : ℚ := 1
  maxDelay : ℚ := 10
  jitter : ℚ := 1 / 10
deriving DecidableEq, Repr

/-- Client-side state touched by the request machinery: connection flag,
shared request queue, per-endpoint error counters with their reset window,
a counter of rate-limiter acquisitions, a counter of `_refresh_token`
calls, the log of sleeps performed and the log of requests sent over the
network. -/
structure ClientState where
  isConnected : Bool
  queue : RequestQueue Request
  errorCounts : String → Nat
  lastErrorReset : ℚ
  now : ℚ
  acquireCount : Nat
  refreshCount : Nat
  sleeps : List ℚ
  sends : List Request

def ERROR_THRESHOLD : Nat := 50

def ERROR_RESET_INTERVAL : ℚ := 3600

def baseUrl : String := "https://api.tradelocker.com"

/-- `_process_response` (lines 231-242): reject non-dict bodies, raise
`API error` when the body carries an `error` entry, otherwise return the
body unchanged. -/
def processResponse (b : Body) : Except PyExc Body :=
  if b.isDict = false then Except.error PyExc.valueError
  else
    match b.errField with
    | some msg => Except.error (PyExc.apiError msg)
    | none => Except.ok b

/-- `_process_request_queue` (lines 125-148) against a response script:
dequeue (blocking forever on an empty queue, since the `QueueEmpty` raise
is swallowed and the loop then waits on `not_empty`), acquire a
rate-limiter token, send; on 429 sleep `Retry-After` (default 5) seconds,
re-enqueue the request at priority 0 and loop; otherwise return the body. -/
def processRequestQueue : List HttpResp → ClientState →
    AttemptOut × List HttpResp × ClientState
  | script, st =>
    match st.queue.get with
    | none => (AttemptOut.hang, script, st)
    | some (item, q) =>
      let st1 := { st with queue := q, acquireCount := st.acquireCount + 1 }
      match script with
      | [] => (AttemptOut.hang, [], st1)
      | resp :: rest =>
        let st2 := { st1 with sends := st1.sends ++ [item.request] }
        if resp.status = 429 then
          let ra : Nat := resp.retryAfter.getD 5
          processRequestQueue rest
            { st2 with
              sleeps := st2.sleeps ++ [(ra : ℚ)],
              queue := st2.queue.put item.request 0 }
        else (AttemptOut.ok resp.body, rest, st2)

/-- The backoff of lines 211-220: `min(base_delay * 2^retries, max_delay)`
plus the jitter drawn for this retry index. -/
def backoffSleep (cfg : RetryConfig) (jit : Nat → ℚ) (retries : Nat)
    (st : ClientState) : ClientState :=
  let delay := min (cfg.baseDelay * 2 ^ retries) cfg.maxDelay
  { st with sleeps := st.sleeps ++ [delay + jit retries] }

/-- The `while retries <= max_retries` loop of `_make_request`
(lines 172-229), generic in the source of attempt outcomes `next` (the
system instantiates it with `processRequestQueue`).  Returns the caller's
result, the final state, the final value of `retries` and the remaining
outcome source; `none` models non-termination (fuel exhausted or a hanging
attempt). -/
def makeRequestGo {σ : Type} (next : σ → ClientState → AttemptOut × σ × ClientState)
    (cfg : RetryConfig) (refreshOk : Bool) (jit : Nat → ℚ)
    (endpoint : String) (req : Request) (priority : Nat) (endpointErrors : Nat) :
    Option PyExc → Nat → Nat → σ → ClientState →
    Option (Except PyExc Body × ClientState × Nat × σ)
  | lastExc, retries, fuel, src, st =>
    if retries > cfg.maxRetries then
      -- lines 224-229: update the error count from the entry snapshot, then
      -- re-raise the last observed exception
      let st := { st with
        errorCounts := Function.update st.errorCounts endpoint (endpointErrors + 1) }
      some (Except.error (lastExc.getD PyExc.maxRetriesExceeded), st, retries, src)
    else
      match fuel with
      | 0 => none
      | fuel + 1 =>
        -- line 177: put the request, line 178: run the processing loop
        let st := { st with queue := st.queue.put req priority }
        let out := next src st
        let src := out.2.1
        let st := out.2.2
        match out.1 with
        | AttemptOut.hang => none
        | AttemptOut.ok body =>
          -- lines 180-184: decrement the error count, then validate
          let st := { st with
            errorCounts := Function.update st.errorCounts endpoint
              (max 0 (st.errorCounts endpoint - 1)) }
          match processResponse body with
          | Except.ok b => some (Except.ok b, st, retries, src)
          | Except.error e =>
            makeRequestGo next cfg refreshOk jit endpoint req priority endpointErrors
              (some e) (retries + 1) fuel src (backoffSleep cfg jit retries st)
        | AttemptOut.respErr status ra =>
          let e : PyExc := PyExc.respErr status ra
          if status = 401 ∧ endpoint ≠ "/auth/login" then
            let st := { st with refreshCount := st.refreshCount + 1 }
            if refreshOk then
              makeRequestGo next cfg refreshOk jit endpoint req priority endpointErrors
                (some e) retries fuel src st
            else
              makeRequestGo next cfg refreshOk jit endpoint req priority endpointErrors
                (some e) (retries + 1) fuel src (backoffSleep cfg jit retries st)
          else if status = 429 then
            let ra' : Nat := ra.getD 5
            makeRequestGo next cfg refreshOk jit endpoint req priority endpointErrors
              (some e) retries fuel src { st with sleeps := st.sleeps ++ [(ra' : ℚ)] }
          else if 500 ≤ status then
            makeRequestGo next cfg refreshOk jit endpoint req priority endpointErrors
              (some e) (retries + 1) fuel src (backoffSleep cfg jit retries st)
          else
            some (Except.error e, st, retries, src)
        | AttemptOut.clientErr =>
          makeRequestGo next cfg refreshOk jit endpoint req priority endpointErrors
            (some PyExc.clientErr) (retries + 1) fuel src (backoffSleep cfg jit retries st)
        | AttemptOut.exc msg =>
          makeRequestGo next cfg refreshOk jit endpoint req priority endpointErrors
            (some (PyExc.exc msg)) (retries + 1) fuel src (backoffSleep cfg jit retries st)

/-- Clearing of the error window at the top of `_make_request`
(lines 162-166): once `ERROR_RESET_INTERVAL` has elapsed since the last
reset, all counters are cleared wholesale and the window restarts. -/
def resetErrorWindow (st : ClientState) : ClientState :=
  if st.now - st.lastErrorReset > ERROR_RESET_INTERVAL then
    { st with errorCounts := fun _ => 0, lastErrorReset := st.now }
  else st

/-- `_make_request` (lines 150-229): connection check, error-window reset,
circuit-breaker check, then the retry loop. -/
def makeRequest {σ : Type} (next : σ → ClientState → AttemptOut × σ × ClientState)
    (cfg : RetryConfig) (refreshOk : Bool) (jit : Nat → ℚ)
    (method endpoint : String) (priority : Nat) (tag : Nat)
    (fuel : Nat) (src : σ) (st : ClientState) :
    Option (Except PyExc Body × ClientState × Nat × σ) :=
  if st.isConnected = false ∧ endpoint ≠ "/auth/login" then
    some (Except.error PyExc.notConnected, st, 0, src)
  else
    let req : Request := { method := method, url := baseUrl ++ endpoint, tag := tag }
    let st := resetErrorWindow st
    let endpointErrors := st.errorCounts endpoint
    if endpointErrors ≥ ERROR_THRESHOLD then
      some (Except.error (PyExc.suspended endpoint), st, 0, src)
    else
      makeRequestGo next cfg refreshOk jit endpoint req priority endpointErrors
        none 0 fuel src st

/-- An attempt source that replays a fixed list of outcomes, for stating
properties about individual branches of the retry loop. -/
def scriptedNext : List AttemptOut → ClientState → AttemptOut × List AttemptOut × ClientState
  | [], st => (AttemptOut.hang, [], st)
  | a :: rest, st => (a, rest, st)

theorem requestQueue_get_singleton {α : Type} (q : RequestQueue α) (x : QItem α)
    (hq : q.queue = [x]) :
    q.get = some (x, { q with queue := [] }) := by
  unfold RequestQueue.get
  rw [hq]

theorem requestQueue_put_on_empty {α : Type} (q : RequestQueue α) (hq : q.queue = [])
    (hmax : 0 < q.maxSize) (r : α) (p : Nat) :
    q.put r p =
      { q with queue := [{ priority := p, time := q.clock, request := r }],
               clock := q.clock + 1 } := by
  unfold RequestQueue.put
  rw [hq]
  have hdrop : ([] : List (QItem α)).length + 1 - q.maxSize = 0 := by
    simp only [List.length_nil]
    omega
  rw [hdrop]
  simp [List.insertionSort, List.orderedInsert]

/-- Draining lemma for `_process_request_queue`: with a single queued item
and a script of 429 responses followed by one non-429 response, the loop
sleeps each `Retry-After` value (default 5), re-sends the same request each
time, and delivers the body of the final response; error counters and the
refresh counter are untouched and the queue ends empty. -/
theorem processRequestQueue_drain (script429 : List HttpResp)
    (h429 : ∀ r ∈ script429, r.status = 429) (resp : HttpResp)
    (hresp : ¬ resp.status = 429) :
    ∀ (st : ClientState) (x : QItem Request), st.queue.queue = [x] →
      0 < st.queue.maxSize →
      ∃ stF : ClientState,
        processRequestQueue (script429 ++ [resp]) st =
          (AttemptOut.ok resp.body, [], stF) ∧
        stF.sleeps = st.sleeps ++
          script429.map (fun r => ((r.retryAfter.getD 5 : Nat) : ℚ)) ∧
        stF.sends = st.sends ++ List.replicate (script429.length + 1) x.request ∧
        stF.errorCounts = st.errorCounts ∧
        stF.refreshCount = st.refreshCount ∧
        stF.queue.queue = [] := by
  induction script429 with
  | nil =>
    intro st x hq hmax
    refine ⟨({ st with
                queue := { st.queue with queue := [] },
                acquireCount := st.acquireCount + 1,
                sends := st.sends ++ [x.request] } : ClientState), ?_, ?_, ?_, rfl, rfl, rfl⟩
    · unfold processRequestQueue
      rw [requestQueue_get_singleton st.queue x hq]
      simp only [List.nil_append]
      rw [if_neg hresp]
    · simp
    · simp [List.replicate]
  | cons r script429 ih =>
    intro st x hq hmax
    have hr : r.status = 429 := h429 r (List.mem_cons_self r script429)
    have h429' : ∀ s ∈ script429, s.status = 429 := fun s hs =>
      h429 s (List.mem_cons_of_mem r hs)
    -- state after the 429 branch of this iteration
    set st1 : ClientState :=
      { st with queue := { st.queue with queue := [] }, acquireCount := st.acquireCount + 1 }
      with hst1
    set st2 : ClientState := { st1 with sends := st1.sends ++ [x.request] } with hst2
    have hput := requestQueue_put_on_empty st2.queue (by rw [hst2, hst1]) (by rw [hst2, hst1]; exact hmax)
      x.request 0
    set st3 : ClientState :=
      { st2 with sleeps := st2.sleeps ++ [((r.retryAfter.getD 5 : Nat) : ℚ)],
                 queue := st2.queue.put x.request 0 } with hst3
    have hq3 : st3.queue.queue =
        [{ priority := 0, time := st2.queue.clock, request := x.request }] := by
      rw [hst3]
      simp only
      rw [hput]
    have hmax3 : 0 < st3.queue.maxSize := by
      rw [hst3]
      simp only
      rw [hput]
      exact hmax
    obtain ⟨stF, hrun, hsleeps, hsends, hcounts, hrefresh, hqF⟩ :=
      ih h429' st3 _ hq3 hmax3
    refine ⟨stF, ?_, ?_, ?_, hcounts, hrefresh, hqF⟩
    · rw [List.cons_append]
      unfold processRequestQueue
      rw [requestQueue_get_singleton st.queue x hq]
      simp only
      rw [if_pos hr]
      exact hrun
    · rw [hsleeps, hst3]
      simp [List.append_assoc]
    · rw [hsends, hst3, hst2]
      simp [List.replicate_succ, List.append_assoc]

/-! ### Claim C10: the not-connected guard is first and atomic -/

/-- C10: calling `_make_request` while not connected, on any endpoint other
than `/auth/login`, raises `Not connected` before anything else happens:
the returned state is exactly the input state (nothing enqueued, no
rate-limiter acquisition, no error-counter or window change, no sleep) and
the response script is untouched (no network send). -/
theorem makeRequest_notConnected_atomic {σ : Type}
    (next : σ → ClientState → AttemptOut × σ × ClientState)
    (cfg : RetryConfig) (refreshOk : Bool) (jit : Nat → ℚ)
    (method endpoint : String) (priority tag fuel : Nat) (src : σ)
    (st : ClientState) (hconn : st.isConnected = false)
    (hendpoint : endpoint ≠ "/auth/login") :
    makeRequest next cfg refreshOk jit method endpoint priority tag fuel src st =
      some (Except.error PyExc.notConnected, st, 0, src) := by
  unfold makeRequest
  rw [if_pos ⟨hconn, hendpoint⟩]

/-- Witness for C10: a disconnected client asking for `/positions` against
a live one-response script; the state and script come back untouched. -/
theorem makeRequest_notConnected_atomic_witness :
    ({ isConnected := false, queue := RequestQueue.init Request 1000,
       errorCounts := fun _ => 0, lastErrorReset := 0, now := 0,
       acquireCount := 0, refreshCount := 0, sleeps := [], sends := [] } :
        ClientState).isConnected = false ∧
    ("/positions" : String) ≠ "/auth/login" ∧
    makeRequest processRequestQueue {} true (fun _ => 0) "GET" "/positions" 1 0 1
        [{ status := 200 }]
        { isConnected := false, queue := RequestQueue.init Request 1000,
          errorCounts := fun _ => 0, lastErrorReset := 0, now := 0,
          acquireCount := 0, refreshCount := 0, sleeps := [], sends := [] } =
      some (Except.error PyExc.notConnected,
        { isConnected := false, queue := RequestQueue.init Request 1000,
          errorCounts := fun _ => 0, lastErrorReset := 0, now := 0,
          acquireCount := 0, refreshCount := 0, sleeps := [], sends := [] }, 0,
        [{ status := 200 }]) :=
  ⟨rfl, by decide,
    makeRequest_notConnected_atomic processRequestQueue {} true (fun _ => 0)
      "GET" "/positions" 1 0 1 [{ status := 200 }]
      { isConnected := false, queue := RequestQueue.init Request 1000,
        errorCounts := fun _ => 0, lastErrorReset := 0, now := 0,
        acquireCount := 0, refreshCount := 0, sleeps := [], sends := [] }
      rfl (by decide)⟩


theorem resetErrorWindow_of_within (st : ClientState)
    (h : ¬ st.now - st.lastErrorReset > ERROR_RESET_INTERVAL) :
    resetErrorWindow st = st := by
  unfold resetErrorWindow
  rw [if_neg h]

theorem processResponse_ok (b : Body) (hdict : b.isDict = true)
    (herr : b.errField = none) : processResponse b = Except.ok b := by
  unfold processResponse
  rw [herr, hdict]
  simp

/-- Conclusion of claim C3 at the given inputs: against a script of 429
responses followed by one non-429 success, the call returns that success
body, the only sleeps performed are exactly the scripted `Retry-After`
values (5 where the header is absent), the very same request is re-sent
once per 429 plus once for the success, and the retry counter finishes at
0 — no 429 consumed a retry slot. -/
def Handle429Spec (cfg : RetryConfig) (refreshOk : Bool) (jit : Nat → ℚ)
    (method endpoint : String) (priority tag fuel : Nat)
    (script429 : List HttpResp) (resp : HttpResp) (st : ClientState) : Prop :=
  (makeRequest processRequestQueue cfg refreshOk jit method endpoint priority tag fuel
      (script429 ++ [resp]) st).map
      (fun r => (r.1, r.2.1.sleeps, r.2.1.sends, r.2.2.1)) =
    some (Except.ok resp.body,
      st.sleeps ++ script429.map (fun r => ((r.retryAfter.getD 5 : Nat) : ℚ)),
      st.sends ++ List.replicate (script429.length + 1)
        ({ method := method, url := baseUrl ++ endpoint, tag := tag } : Request),
      0)

theorem makeRequest_429_spec (cfg : RetryConfig) (refreshOk : Bool) (jit : Nat → ℚ)
    (method endpoint : String) (priority tag fuel : Nat)
    (script429 : List HttpResp) (resp : HttpResp) (st : ClientState)
    (h429 : ∀ r ∈ script429, r.status = 429)
    (hresp : ¬ resp.status = 429)
    (hdict : resp.body.isDict = true)
    (herr : resp.body.errField = none)
    (hconn : st.isConnected = true)
    (hwindow : ¬ st.now - st.lastErrorReset > ERROR_RESET_INTERVAL)
    (hthresh : st.errorCounts endpoint < ERROR_THRESHOLD)
    (hqueue : st.queue.queue = [])
    (hmax : 0 < st.queue.maxSize)
    (hfuel : 0 < fuel) :
    Handle429Spec cfg refreshOk jit method endpoint priority tag fuel script429 resp st := by
  obtain ⟨f, rfl⟩ : ∃ f, fuel = f + 1 := ⟨fuel - 1, by omega⟩
  unfold Handle429Spec
  unfold makeRequest
  rw [if_neg (by simp [hconn]), resetErrorWindow_of_within st hwindow]
  rw [if_neg (not_le.mpr hthresh)]
  unfold makeRequestGo
  rw [if_neg (by omega : ¬ 0 > cfg.maxRetries)]
  split
  · exfalso; omega
  next fuel heq =>
    simp only
    rw [requestQueue_put_on_empty st.queue hqueue hmax]
    obtain ⟨stF, hrun, hsleeps, hsends, hcounts, hrefresh, hqF⟩ :=
      processRequestQueue_drain script429 h429 resp hresp
        { st with queue :=
            { queue := [{ priority := priority, time := st.queue.clock,
                          request := { method := method, url := baseUrl ++ endpoint,
                                       tag := tag } }],
              maxSize := st.queue.maxSize, clock := st.queue.clock + 1 } }
        { priority := priority, time := st.queue.clock,
          request := { method := method, url := baseUrl ++ endpoint, tag := tag } }
        rfl hmax
    rw [hrun]
    simp only
    rw [processResponse_ok resp.body hdict herr]
    simp only [Option.map_some]
    simp only at hsleeps hsends
    simp [hsleeps, hsends]


/-- Witness for C3: two 429 responses (one with `Retry-After: 3`, one with
the header absent) then a 200; the call sleeps exactly 3 s and 5 s, sends
the same request three times, and finishes with the retry counter at 0. -/
theorem makeRequest_429_spec_witness :
    (∀ r ∈ ([{ status := 429, retryAfter := some 3 }, { status := 429 }] :
        List HttpResp), r.status = 429) ∧
    ¬ ({ status := 200, body := { tag := 7 } } : HttpResp).status = 429 ∧
    ({ status := 200, body := { tag := 7 } } : HttpResp).body.isDict = true ∧
    ({ status := 200, body := { tag := 7 } } : HttpResp).body.errField = none ∧
    Handle429Spec {} true (fun _ => 0) "GET" "/positions" 1 0 1
      [{ status := 429, retryAfter := some 3 }, { status := 429 }]
      { status := 200, body := { tag := 7 } }
      { isConnected := true, queue := RequestQueue.init Request 1000,
        errorCounts := fun _ => 0, lastErrorReset := 0, now := 0,
        acquireCount := 0, refreshCount := 0, sleeps := [], sends := [] } :=
  ⟨by decide, by decide, rfl, rfl,
    makeRequest_429_spec {} true (fun _ => 0) "GET" "/positions" 1 0 1
      [{ status := 429, retryAfter := some 3 }, { status := 429 }]
      { status := 200, body := { tag := 7 } }
      { isConnected := true, queue := RequestQueue.init Request 1000,
        errorCounts := fun _ => 0, lastErrorReset := 0, now := 0,
        acquireCount := 0, refreshCount := 0, sleeps := [], sends := [] }
      (by decide) (by decide) rfl rfl rfl (by norm_num [ERROR_RESET_INTERVAL])
      (by decide) rfl (by decide) (by decide)⟩


theorem processRequestQueue_first (resp : HttpResp) (rest : List HttpResp)
    (st : ClientState) (x : QItem Request) (hq : st.queue.queue = [x])
    (hresp : ¬ resp.status = 429) :
    processRequestQueue (resp :: rest) st =
      (AttemptOut.ok resp.body, rest,
        { st with queue := { st.queue with queue := [] },
                  acquireCount := st.acquireCount + 1,
                  sends := st.sends ++ [x.request] }) := by
  unfold processRequestQueue
  rw [requestQueue_get_singleton st.queue x hq]
  simp only
  rw [if_neg hresp]

/-- C4 (code bug): with the server answering `GET /positions` with HTTP 401
once (a JSON dict body without an `error` key) and 200 afterwards, the call
performs NO token refresh and returns the 401 response body to the caller
as a success, leaving the 200 response unconsumed: `_process_request_queue`
returns `response.json()` for every non-429 status and never raises
`aiohttp.ClientResponseError`, so the refresh-and-retry branch of
`_make_request` (lines 189-196) is unreachable. -/
theorem makeRequest_401_no_refresh :
    (makeRequest processRequestQueue {} true (fun _ => 0) "GET" "/positions" 1 0 1
        [{ status := 401, body := { tag := 1 } }, { status := 200, body := { tag := 2 } }]
        { isConnected := true, queue := RequestQueue.init Request 1000,
          errorCounts := fun _ => 0, lastErrorReset := 0, now := 0,
          acquireCount := 0, refreshCount := 0, sleeps := [], sends := [] }).map
      (fun r => (r.1, r.2.1.refreshCount, r.2.1.sleeps, r.2.2.1, r.2.2.2)) =
    some (Except.ok { tag := 1 }, 0, [], 0,
      [{ status := 200, body := { tag := 2 } }]) := by
  unfold makeRequest
  rw [if_neg (by simp)]
  rw [resetErrorWindow_of_within _ (by norm_num [ERROR_RESET_INTERVAL])]
  rw [if_neg (by decide)]
  unfold makeRequestGo
  rw [if_neg (by omega : ¬ 0 > ({} : RetryConfig).maxRetries)]
  simp only
  rw [requestQueue_put_on_empty _ rfl (by decide)]
  rw [processRequestQueue_first _ _ _ _ rfl (by decide)]
  simp only
  rw [processResponse_ok _ rfl rfl]
  rfl


/-- C5 counterexample: a successful `GET /positions` against an error count
of 1 for that endpoint, within the current window, leaves the count at 0 —
the counter was decremented by an operation of the layer, contradicting
"never decremented within a window". -/
theorem errorCounts_decrement_counterexample :
    (({ isConnected := true, queue := RequestQueue.init Request 1000,
        errorCounts := fun e => if e = "/positions" then 1 else 0,
        lastErrorReset := 0, now := 0, acquireCount := 0, refreshCount := 0,
        sleeps := [], sends := [] } : ClientState).errorCounts "/positions" = 1) ∧
    (makeRequest processRequestQueue {} true (fun _ => 0) "GET" "/positions" 1 0 1
        [{ status := 200, body := { tag := 3 } }]
        { isConnected := true, queue := RequestQueue.init Request 1000,
          errorCounts := fun e => if e = "/positions" then 1 else 0,
          lastErrorReset := 0, now := 0, acquireCount := 0, refreshCount := 0,
          sleeps := [], sends := [] }).map
      (fun r => (r.1, r.2.1.errorCounts "/positions")) =
      some (Except.ok { tag := 3 }, 0) := by
  refine ⟨by decide, ?_⟩
  unfold makeRequest
  rw [if_neg (by simp)]
  rw [resetErrorWindow_of_within _ (by norm_num [ERROR_RESET_INTERVAL])]
  rw [if_neg (by decide)]
  unfold makeRequestGo
  rw [if_neg (by omega : ¬ 0 > ({} : RetryConfig).maxRetries)]
  simp only
  rw [requestQueue_put_on_empty _ rfl (by decide)]
  rw [processRequestQueue_first _ _ _ _ rfl (by decide)]
  simp only
  rw [processResponse_ok _ rfl rfl]
  simp [Function.update]

/-- `_process_request_queue` never touches the endpoint error counters. -/
theorem processRequestQueue_errorCounts (script : List HttpResp) :
    ∀ st : ClientState,
      (processRequestQueue script st).2.2.errorCounts = st.errorCounts := by
  induction script with
  | nil =>
    intro st
    unfold processRequestQueue
    cases hget : st.queue.get with
    | none => rfl
    | some v => obtain ⟨item, q⟩ := v; rfl
  | cons resp rest ih =>
    intro st
    unfold processRequestQueue
    cases hget : st.queue.get with
    | none => rfl
    | some v =>
      obtain ⟨item, q⟩ := v
      simp only
      by_cases h : resp.status = 429
      · rw [if_pos h]
        rw [ih]
      · rw [if_neg h]


/-- Within a window, the retry loop can change the counters only by the
per-response decrement on the requested endpoint, or by the final
`entry-count + 1` assignment when retries are exhausted; counters of other
endpoints are untouched. -/
theorem makeRequestGo_errorCounts (cfg : RetryConfig) (refreshOk : Bool)
    (jit : Nat → ℚ) (endpoint : String) (req : Request) (priority eErr : Nat) :
    ∀ (fuel : Nat) (lastExc : Option PyExc) (retries : Nat)
      (script : List HttpResp) (st : ClientState)
      (res : Except PyExc Body × ClientState × Nat × List HttpResp),
      makeRequestGo processRequestQueue cfg refreshOk jit endpoint req priority eErr
        lastExc retries fuel script st = some res →
      (∀ e, ¬ e = endpoint → res.2.1.errorCounts e = st.errorCounts e) ∧
      (∃ k, res.2.1.errorCounts endpoint = st.errorCounts endpoint - k ∨
            res.2.1.errorCounts endpoint = eErr + 1) := by
  intro fuel
  induction fuel with
  | zero =>
    intro lastExc retries script st res h
    unfold makeRequestGo at h
    by_cases hret : retries > cfg.maxRetries
    · rw [if_pos hret] at h
      simp only [Option.some_inj] at h
      subst h
      refine ⟨?_, 0, Or.inr ?_⟩
      · intro e he
        exact Function.update_noteq he _ _
      · simp [Function.update_same]
    · rw [if_neg hret] at h
      cases h
  | succ fuel ih =>
    intro lastExc retries script st res h
    unfold makeRequestGo at h
    by_cases hret : retries > cfg.maxRetries
    · rw [if_pos hret] at h
      simp only [Option.some_inj] at h
      subst h
      refine ⟨?_, 0, Or.inr ?_⟩
      · intro e he
        exact Function.update_noteq he _ _
      · simp [Function.update_same]
    · rw [if_neg hret] at h
      simp only at h
      rcases hpq : processRequestQueue script
          { st with queue := st.queue.put req priority } with ⟨a, src1, st2⟩
      have hc2 : st2.errorCounts = st.errorCounts := by
        have := processRequestQueue_errorCounts script
          { st with queue := st.queue.put req priority }
        rw [hpq] at this
        exact this
      rw [hpq] at h
      simp only at h
      cases a with
      | hang => simp only at h; cases h
      | ok body =>
        simp only at h
        cases hpr : processResponse body with
        | ok b =>
          rw [hpr] at h
          simp only [Option.some_inj] at h
          subst h
          refine ⟨?_, 1, Or.inl ?_⟩
          · intro e he
            simp only
            rw [Function.update_noteq he]
            rw [hc2]
          · simp only
            rw [Function.update_same, hc2]
            omega
        | error e =>
          rw [hpr] at h
          obtain ⟨h1, h2⟩ := ih _ _ _ _ _ h
          constructor
          · intro e' he'
            rw [h1 e' he']
            simp only [backoffSleep]
            rw [Function.update_noteq he']
            rw [hc2]
          · obtain ⟨k, hk⟩ := h2
            rcases hk with hk | hk
            · refine ⟨k + 1, Or.inl ?_⟩
              rw [hk]
              simp only [backoffSleep]
              rw [Function.update_same, hc2]
              omega
            · exact ⟨0, Or.inr hk⟩
      | respErr status ra =>
        simp only at h
        by_cases h401 : status = 401 ∧ ¬ endpoint = "/auth/login"
        · rw [if_pos h401] at h
          by_cases hrk : refreshOk = true
          · rw [if_pos hrk] at h
            obtain ⟨h1, h2⟩ := ih _ _ _ _ _ h
            constructor
            · intro e' he'
              rw [h1 e' he']
              exact congrFun hc2 e'
            · obtain ⟨k, hk⟩ := h2
              rcases hk with hk | hk
              · refine ⟨k, Or.inl ?_⟩
                rw [hk]
                rw [congrFun hc2 endpoint]
              · exact ⟨0, Or.inr hk⟩
          · rw [if_neg hrk] at h
            obtain ⟨h1, h2⟩ := ih _ _ _ _ _ h
            constructor
            · intro e' he'
              rw [h1 e' he']
              simp only [backoffSleep]
              exact congrFun hc2 e'
            · obtain ⟨k, hk⟩ := h2
              rcases hk with hk | hk
              · refine ⟨k, Or.inl ?_⟩
                rw [hk]
                simp only [backoffSleep]
                rw [congrFun hc2 endpoint]
              · exact ⟨0, Or.inr hk⟩
        · rw [if_neg h401] at h
          by_cases h429 : status = 429
          · rw [if_pos h429] at h
            obtain ⟨h1, h2⟩ := ih _ _ _ _ _ h
            constructor
            · intro e' he'
              rw [h1 e' he']
              exact congrFun hc2 e'
            · obtain ⟨k, hk⟩ := h2
              rcases hk with hk | hk
              · refine ⟨k, Or.inl ?_⟩
                rw [hk]
                rw [congrFun hc2 endpoint]
              · exact ⟨0, Or.inr hk⟩
          · rw [if_neg h429] at h
            by_cases h500 : 500 ≤ status
            · rw [if_pos h500] at h
              obtain ⟨h1, h2⟩ := ih _ _ _ _ _ h
              constructor
              · intro e' he'
                rw [h1 e' he']
                simp only [backoffSleep]
                exact congrFun hc2 e'
              · obtain ⟨k, hk⟩ := h2
                rcases hk with hk | hk
                · refine ⟨k, Or.inl ?_⟩
                  rw [hk]
                  simp only [backoffSleep]
                  rw [congrFun hc2 endpoint]
                · exact ⟨0, Or.inr hk⟩
            · rw [if_neg h500] at h
              simp only [Option.some_inj] at h
              subst h
              refine ⟨?_, 0, Or.inl ?_⟩
              · intro e' he'
                exact congrFun hc2 e'
              · rw [congrFun hc2 endpoint]
                omega
      | clientErr =>
        simp only at h
        obtain ⟨h1, h2⟩ := ih _ _ _ _ _ h
        constructor
        · intro e' he'
          rw [h1 e' he']
          simp only [backoffSleep]
          exact congrFun hc2 e'
        · obtain ⟨k, hk⟩ := h2
          rcases hk with hk | hk
          · refine ⟨k, Or.inl ?_⟩
            rw [hk]
            simp only [backoffSleep]
            rw [congrFun hc2 endpoint]
          · exact ⟨0, Or.inr hk⟩
      | exc msg =>
        simp only at h
        obtain ⟨h1, h2⟩ := ih _ _ _ _ _ h
        constructor
        · intro e' he'
          rw [h1 e' he']
          simp only [backoffSleep]
          exact congrFun hc2 e'
        · obtain ⟨k, hk⟩ := h2
          rcases hk with hk | hk
          · refine ⟨k, Or.inl ?_⟩
            rw [hk]
            simp only [backoffSleep]
            rw [congrFun hc2 endpoint]
          · exact ⟨0, Or.inr hk⟩


/-- C5, amended: when `ERROR_RESET_INTERVAL` has elapsed the window reset
sets every endpoint counter to zero (not a decrement); between two resets a
counter can move downward only on the requested endpoint (the per-response
decrement of one, applied once per received response), otherwise a call
leaves foreign endpoints untouched and ends the requested endpoint at
either `entry - k` or at the retry-exhaustion write `entry + 1`. -/
theorem errorCounts_window_amended (cfg : RetryConfig) (refreshOk : Bool)
    (jit : Nat → ℚ) (method endpoint : String) (priority tag fuel : Nat)
    (script : List HttpResp) (st : ClientState)
    (res : Except PyExc Body × ClientState × Nat × List HttpResp)
    (hwindow : ¬ st.now - st.lastErrorReset > ERROR_RESET_INTERVAL)
    (hrun : makeRequest processRequestQueue cfg refreshOk jit method endpoint priority
        tag fuel script st = some res) :
    (∀ st' : ClientState, st'.now - st'.lastErrorReset > ERROR_RESET_INTERVAL →
        (resetErrorWindow st').errorCounts = fun _ => 0) ∧
    (∀ e, ¬ e = endpoint → res.2.1.errorCounts e = st.errorCounts e) ∧
    (∃ k, res.2.1.errorCounts endpoint = st.errorCounts endpoint - k ∨
          res.2.1.errorCounts endpoint = st.errorCounts endpoint + 1) := by
  refine ⟨?_, ?_⟩
  · intro st' h
    unfold resetErrorWindow
    rw [if_pos h]
  · unfold makeRequest at hrun
    by_cases hconn : st.isConnected = false ∧ ¬ endpoint = "/auth/login"
    · rw [if_pos hconn] at hrun
      simp only [Option.some_inj] at hrun
      subst hrun
      exact ⟨fun e _ => rfl, 0, Or.inl rfl⟩
    · rw [if_neg hconn] at hrun
      rw [resetErrorWindow_of_within st hwindow] at hrun
      simp only at hrun
      by_cases hth : st.errorCounts endpoint ≥ ERROR_THRESHOLD
      · rw [if_pos hth] at hrun
        simp only [Option.some_inj] at hrun
        subst hrun
        exact ⟨fun e _ => rfl, 0, Or.inl rfl⟩
      · rw [if_neg hth] at hrun
        obtain ⟨h1, h2⟩ := makeRequestGo_errorCounts cfg refreshOk jit endpoint
          _ priority _ fuel none 0 script st res hrun
        exact ⟨h1, h2⟩

/-- Witness for the amended C5: a disconnected client, where the call exits
early and every counter is untouched. -/
theorem errorCounts_window_amended_witness :
    (¬ (({ isConnected := false, queue := RequestQueue.init Request 1000,
           errorCounts := fun _ => 0, lastErrorReset := 0, now := 0,
           acquireCount := 0, refreshCount := 0, sleeps := [], sends := [] } :
            ClientState).now -
         ({ isConnected := false, queue := RequestQueue.init Request 1000,
            errorCounts := fun _ => 0, lastErrorReset := 0, now := 0,
            acquireCount := 0, refreshCount := 0, sleeps := [], sends := [] } :
             ClientState).lastErrorReset > ERROR_RESET_INTERVAL)) ∧
    (makeRequest processRequestQueue {} true (fun _ => 0) "GET" "/positions" 1 0 1 []
        { isConnected := false, queue := RequestQueue.init Request 1000,
          errorCounts := fun _ => 0, lastErrorReset := 0, now := 0,
          acquireCount := 0, refreshCount := 0, sleeps := [], sends := [] } =
      some (Except.error PyExc.notConnected,
        { isConnected := false, queue := RequestQueue.init Request 1000,
          errorCounts := fun _ => 0, lastErrorReset := 0, now := 0,
          acquireCount := 0, refreshCount := 0, sleeps := [], sends := [] }, 0, [])) ∧
    ((∀ st' : ClientState, st'.now - st'.lastErrorReset > ERROR_RESET_INTERVAL →
        (resetErrorWindow st').errorCounts = fun _ => 0) ∧
     (∀ e, ¬ e = "/positions" →
        ({ isConnected := false, queue := RequestQueue.init Request 1000,
           errorCounts := fun _ => 0, lastErrorReset := 0, now := 0,
           acquireCount := 0, refreshCount := 0, sleeps := [], sends := [] } :
            ClientState).errorCounts e =
        ({ isConnected := false, queue := RequestQueue.init Request 1000,
           errorCounts := fun _ => 0, lastErrorReset := 0, now := 0,
           acquireCount := 0, refreshCount := 0, sleeps := [], sends := [] } :
            ClientState).errorCounts e) ∧
     (∃ k, ({ isConnected := false, queue := RequestQueue.init Request 1000,
              errorCounts := fun _ => 0, lastErrorReset := 0, now := 0,
              acquireCount := 0, refreshCount := 0, sleeps := [], sends := [] } :
               ClientState).errorCounts "/positions" =
            ({ isConnected := false, queue := RequestQueue.init Request 1000,
               errorCounts := fun _ => 0, lastErrorReset := 0, now := 0,
               acquireCount := 0, refreshCount := 0, sleeps := [], sends := [] } :
                ClientState).errorCounts "/positions" - k ∨
           ({ isConnected := false, queue := RequestQueue.init Request 1000,
              errorCounts := fun _ => 0, lastErrorReset := 0, now := 0,
              acquireCount := 0, refreshCount := 0, sleeps := [], sends := [] } :
               ClientState).errorCounts "/positions" =
           ({ isConnected := false, queue := RequestQueue.init Request 1000,
              errorCounts := fun _ => 0, lastErrorReset := 0, now := 0,
              acquireCount := 0, refreshCount := 0, sleeps := [], sends := [] } :
               ClientState).errorCounts "/positions" + 1)) :=
  ⟨by norm_num [ERROR_RESET_INTERVAL],
   by unfold makeRequest; rw [if_pos ⟨rfl, by decide⟩],
   errorCounts_window_amended {} true (fun _ => 0) "GET" "/positions" 1 0 1 []
     { isConnected := false, queue := RequestQueue.init Request 1000,
       errorCounts := fun _ => 0, lastErrorReset := 0, now := 0,
       acquireCount := 0, refreshCount := 0, sleeps := [], sends := [] }
     (Except.error PyExc.notConnected,
       { isConnected := false, queue := RequestQueue.init Request 1000,
         errorCounts := fun _ => 0, lastErrorReset := 0, now := 0,
         acquireCount := 0, refreshCount := 0, sleeps := [], sends := [] }, 0, [])
     (by norm_num [ERROR_RESET_INTERVAL])
     (by unfold makeRequest; rw [if_pos ⟨rfl, by decide⟩])⟩


/-- The request dict that `_make_request` builds (line 156). -/
def mrRequest (method endpoint : String) (tag : Nat) : Request :=
  { method := method, url := baseUrl ++ endpoint, tag := tag }

/-- C7 counterexample: an attempt failing with a 404
`aiohttp.ClientResponseError` is raised to the caller with the endpoint's
error count still at 0 — the `raise` at line 206 skips the error-count
update at line 225, so nothing is recorded before the error reaches the
caller. -/
theorem clientError_no_increment_counterexample :
    (makeRequest scriptedNext {} true (fun _ => 0) "GET" "/positions" 1 0 1
        [AttemptOut.respErr 404 none]
        { isConnected := true, queue := RequestQueue.init Request 1000,
          errorCounts := fun _ => 0, lastErrorReset := 0, now := 0,
          acquireCount := 0, refreshCount := 0, sleeps := [], sends := [] }).map
      (fun r => (r.1, r.2.1.errorCounts "/positions", r.2.2.1)) =
    some (Except.error (PyExc.respErr 404 none), 0, 0) := by
  unfold makeRequest
  rw [if_neg (by simp)]
  rw [resetErrorWindow_of_within _ (by norm_num [ERROR_RESET_INTERVAL])]
  rw [if_neg (by decide)]
  unfold makeRequestGo
  rw [if_neg (by omega : ¬ 0 > ({} : RetryConfig).maxRetries)]
  simp only [scriptedNext]
  rw [if_neg (by decide : ¬ ((404 : Nat) = 401 ∧ ("/positions" : String) ≠ "/auth/login"))]
  rw [if_neg (by decide : ¬ (404 : Nat) = 429)]
  rw [if_neg (by decide : ¬ (500 : Nat) ≤ 404)]
  rfl

/-- Conclusion of the amended claim C7: a non-retryable client error is
raised to the caller at once — the retry counter stays 0, the remaining
attempt outcomes are unconsumed, no sleep happens, and the state differs
from the input state only by the request that was enqueued for the single
attempt; in particular the endpoint's error count is NOT incremented. -/
def ClientErrorRaiseSpec (cfg : RetryConfig) (refreshOk : Bool) (jit : Nat → ℚ)
    (method endpoint : String) (priority tag fuel : Nat) (status : Nat)
    (ra : Option Nat) (rest : List AttemptOut) (st : ClientState) : Prop :=
  makeRequest scriptedNext cfg refreshOk jit method endpoint priority tag fuel
      (AttemptOut.respErr status ra :: rest) st =
    some (Except.error (PyExc.respErr status ra),
      { st with queue := st.queue.put (mrRequest method endpoint tag) priority },
      0, rest)

/-- C7, amended: on an attempt failing with a 4xx
`aiohttp.ClientResponseError` other than 401 and 429, `_make_request`
re-raises immediately — no further attempt, no backoff — but the endpoint's
error count is left unchanged, not incremented: the only error-count write
on failure (line 225) runs after the retry budget is exhausted, and the
`raise` bypasses it. -/
theorem clientError_raises_immediately (cfg : RetryConfig) (refreshOk : Bool)
    (jit : Nat → ℚ) (method endpoint : String) (priority tag fuel : Nat)
    (status : Nat) (ra : Option Nat) (rest : List AttemptOut) (st : ClientState)
    (hconn : st.isConnected = true)
    (hwindow : ¬ st.now - st.lastErrorReset > ERROR_RESET_INTERVAL)
    (hthresh : st.errorCounts endpoint < ERROR_THRESHOLD)
    (h400 : 400 ≤ status) (h500 : status < 500)
    (h401 : ¬ status = 401) (h429 : ¬ status = 429) (hfuel : 0 < fuel) :
    ClientErrorRaiseSpec cfg refreshOk jit method endpoint priority tag fuel
      status ra rest st := by
  obtain ⟨f, rfl⟩ : ∃ f, fuel = f + 1 := ⟨fuel - 1, by omega⟩
  unfold ClientErrorRaiseSpec
  unfold makeRequest
  rw [if_neg (by simp [hconn])]
  rw [resetErrorWindow_of_within st hwindow]
  rw [if_neg (not_le.mpr hthresh)]
  unfold makeRequestGo
  rw [if_neg (by omega : ¬ 0 > cfg.maxRetries)]
  split
  · exfalso; omega
  next fuel heq =>
    simp only [scriptedNext]
    rw [if_neg (by simp [h401])]
    rw [if_neg h429]
    rw [if_neg (by omega : ¬ 500 ≤ status)]
    rfl

/-- Witness for the amended C7: a 403 with one further (never consumed)
attempt outcome available. -/
theorem clientError_raises_immediately_witness :
    ({ isConnected := true, queue := RequestQueue.init Request 1000,
       errorCounts := fun _ => 0, lastErrorReset := 0, now := 0,
       acquireCount := 0, refreshCount := 0, sleeps := [], sends := [] } :
        ClientState).isConnected = true ∧
    (400 ≤ (403 : Nat)) ∧ ((403 : Nat) < 500) ∧
    ClientErrorRaiseSpec {} true (fun _ => 0) "GET" "/account/info" 1 0 2 403 none
      [(AttemptOut.ok { isDict := true, errField := none, tag := 0 })]
      { isConnected := true, queue := RequestQueue.init Request 1000,
        errorCounts := fun _ => 0, lastErrorReset := 0, now := 0,
        acquireCount := 0, refreshCount := 0, sleeps := [], sends := [] } :=
  ⟨rfl, by decide, by decide,
    clientError_raises_immediately {} true (fun _ => 0) "GET" "/account/info" 1 0 2
      403 none [(AttemptOut.ok { isDict := true, errField := none, tag := 0 })]
      { isConnected := true, queue := RequestQueue.init Request 1000,
        errorCounts := fun _ => 0, lastErrorReset := 0, now := 0,
        acquireCount := 0, refreshCount := 0, sleeps := [], sends := [] }
      rfl (by norm_num [ERROR_RESET_INTERVAL]) (by decide) (by decide) (by decide)
      (by decide) (by decide) (by decide)⟩


end TradingBot
